import Mathlib

/-!
Verification development for the Upbit-Quant trading core.

The definitions below are a shallow embedding of the two core source
files:

* src/main/TradingEnvironment.py  (class TradingEnv)
* src/Ticker/Trader1.py           (class QLearningBot)

Conventions of the embedding:

* Python numbers (float, int, and the Decimal values produced by
  validate_positive_number) are embedded uniformly as rationals: the
  embedding models the arithmetic the lines write and abstracts over
  the runtime representation mix (validate_positive_number turns the
  balance, limits and fee into Decimal while prices stay float, a mix
  CPython refuses to add or divide; that uniform type-level defect is
  orthogonal to the claims checked here).
* Possibly non-finite observation entries are embedded as PyVal,
  which distinguishes finite values from nan and the two infinities;
  Python raises on int(nan) and int(inf), which the discretizer's
  try/except turns into the all-zero tuple.
* Methods that mutate self become functions from state to state.
  Code that can raise becomes Except / Option; a raised exception
  leaves the object unchanged (checked against the source: every
  raising path occurs before any field mutation).
* The cache_result decorator on QLearningBot.get_q_value is a real
  memoization cache keyed on the string of the raw arguments (the
  numpy state array and the action index).  It is embedded as the
  qCache field, modelling the regime in which successive calls fall
  within the 60 second ttl, so no entry expires.  Nothing in the
  source ever invalidates or clears this cache.
-/

namespace UQ

/-- Value of one observation dimension as Python sees it: a finite
number, or one of the non-finite floats. -/
inductive PyVal where
  | finite (q : ℚ)
  | nan
  | inf
  | ninf
deriving DecidableEq

/-- Python int() applied to a finite value: truncation toward zero. -/
def truncInt (q : ℚ) : ℤ :=
  if q < 0 then ⌈q⌉ else ⌊q⌋

/-- One dimension of QLearningBot._discretize_state (Trader1.py lines
118-121): bin_index = min(int(value * state_bins), state_bins - 1),
then max(0, bin_index). -/
def discretizeValue (bins : ℕ) (q : ℚ) : ℤ :=
  max 0 (min (truncInt (q * bins)) ((bins : ℤ) - 1))

/-- The loop body of _discretize_state: processes the dimensions in
order and fails (Python: int raises ValueError / OverflowError) at the
first non-finite entry. -/
def discretizeLoop (bins : ℕ) : List PyVal → Option (List ℤ)
  | [] => some []
  | PyVal.finite q :: rest =>
      (discretizeLoop bins rest).map (fun l => discretizeValue bins q :: l)
  | _ :: _ => none

/-- QLearningBot._discretize_state (Trader1.py lines 105-126): the
try/except returns tuple([0] * len(state)) whenever any dimension
raises. -/
def discretize_state (bins : ℕ) (state : List PyVal) : List ℤ :=
  match discretizeLoop bins state with
  | some l => l
  | none => List.replicate state.length 0

/-- Check used in the statement about the exception-free path: every
dimension of the observation is a finite number. -/
def allFinite : List PyVal → Bool
  | [] => true
  | PyVal.finite _ :: rest => allFinite rest
  | _ :: _ => false

/-! ### The market simulation (src/main/TradingEnvironment.py) -/

/-- ActionType (TradingEnvironment.py lines 21-25). -/
inductive ActionType where
  | hold
  | buy
  | sell
deriving DecidableEq

/-- An action passed to TradingEnv.step: the pair
(ActionType(action[0]), float(action[1])). -/
structure MarketAction where
  kind : ActionType
  amount : ℚ
deriving DecidableEq

/-- Constructor arguments of TradingEnv (lines 46-74). -/
structure MarketConfig where
  prices : List ℚ
  initialBalance : ℚ
  maxBuy : ℚ
  maxSell : ℚ
  tradingFee : ℚ
deriving DecidableEq

/-- The mutable fields of TradingEnv (lines 77-81). -/
structure MarketState where
  balance : ℚ
  positionSize : ℚ
  currentStep : ℕ
  totalTrades : ℕ
  totalFees : ℚ
deriving DecidableEq

/-- Errors surfaced by TradingEnv.step; the source wraps every one in
TradingError.  invalidAction models the ValidationError raised for a
negative amount, indexError models the IndexError of an out-of-range
price lookup. -/
inductive StepError where
  | invalidAction
  | indexError
deriving DecidableEq

/-- TradingEnv._execute_buy (lines 174-194). -/
def execute_buy (cfg : MarketConfig) (s : MarketState) (amount price : ℚ) :
    MarketState × ℚ × Bool :=
  let maxBuyable := s.balance / price
  let actualAmount := min (min amount maxBuyable) cfg.maxBuy
  if 0 < actualAmount then
    let cost := actualAmount * price
    let fee := cost * cfg.tradingFee
    let totalCost := cost + fee
    if totalCost ≤ s.balance then
      ({ s with
          balance := s.balance - totalCost
          positionSize := s.positionSize + actualAmount
          totalTrades := s.totalTrades + 1
          totalFees := s.totalFees + fee },
        actualAmount * price * (1 / 100), true)
    else (s, 0, false)
  else (s, 0, false)

/-- TradingEnv._execute_sell (lines 196-214). -/
def execute_sell (cfg : MarketConfig) (s : MarketState) (amount price : ℚ) :
    MarketState × ℚ × Bool :=
  let actualAmount := min (min amount s.positionSize) cfg.maxSell
  if 0 < actualAmount then
    let revenue := actualAmount * price
    let fee := revenue * cfg.tradingFee
    let netRevenue := revenue - fee
    ({ s with
        balance := s.balance + netRevenue
        positionSize := s.positionSize - actualAmount
        totalTrades := s.totalTrades + 1
        totalFees := s.totalFees + fee },
      netRevenue * (1 / 100), true)
  else (s, 0, false)

/-- TradingEnv._is_done (lines 216-222); Python's `and` binds tighter
than `or`. -/
def is_done (cfg : MarketConfig) (s : MarketState) : Bool :=
  decide (s.balance ≤ 0) ||
  decide (cfg.prices.length - 1 ≤ s.currentStep) ||
  (decide (s.positionSize ≤ 0) && decide (s.balance ≤ 0))

/-- Data returned by one call of TradingEnv.step: the observation
array, the reward, done, and the info dictionary entries the claims
mention. -/
structure StepInfo where
  observed : List ℚ
  reward : ℚ
  done : Bool
  totalValue : ℚ
  totalTrades : ℕ
  totalFees : ℚ
  tradeExecuted : Bool
deriving DecidableEq

/-- The action dispatch of TradingEnv.step (lines 133-137): a BUY
executes only when balance > 0, a SELL only when position_size > 0,
anything else leaves the state alone with reward 0. -/
def dispatch (cfg : MarketConfig) (s : MarketState) (a : MarketAction)
    (price : ℚ) : MarketState × ℚ × Bool :=
  match a.kind with
  | ActionType.buy =>
      if 0 < s.balance then execute_buy cfg s a.amount price
      else (s, 0, false)
  | ActionType.sell =>
      if 0 < s.positionSize then execute_sell cfg s a.amount price
      else (s, 0, false)
  | ActionType.hold => (s, 0, false)

/-- TradingEnv.step (lines 105-172).  The negative-amount check (line
123) happens before the price lookup (line 126), which happens before
any mutation, so both error paths leave the state unchanged. -/
def step (cfg : MarketConfig) (s : MarketState) (a : MarketAction) :
    Except StepError (MarketState × StepInfo) :=
  if a.amount < 0 then Except.error StepError.invalidAction
  else
    match cfg.prices.get? s.currentStep with
    | none => Except.error StepError.indexError
    | some currentPrice =>
        let r := dispatch cfg s a currentPrice
        let s2 := { r.1 with currentStep := r.1.currentStep + 1 }
        let newAssetValue :=
          s2.positionSize *
            cfg.prices.getD (min s2.currentStep (cfg.prices.length - 1)) 0
        Except.ok (s2,
          { observed := [s2.balance, newAssetValue, s2.positionSize, currentPrice]
            reward := r.2.1
            done := is_done cfg s2
            totalValue := s2.balance + newAssetValue
            totalTrades := s2.totalTrades
            totalFees := s2.totalFees
            tradeExecuted := r.2.2 })

/-- The state of the environment object after a call of step: the new
state on success, the old state when step raised (no mutation happens
before either raise). -/
def stepState (cfg : MarketConfig) (s : MarketState) (a : MarketAction) :
    MarketState :=
  match step cfg s a with
  | Except.ok (s', _) => s'
  | Except.error _ => s

/-- Market state produced by TradingEnv.reset / __init__ (lines 224-235
and 77-81). -/
def initState (cfg : MarketConfig) : MarketState :=
  { balance := cfg.initialBalance
    positionSize := 0
    currentStep := 0
    totalTrades := 0
    totalFees := 0 }

/-- The observation returned by TradingEnv.reset (lines 239-244). -/
def resetObs (cfg : MarketConfig) : List ℚ :=
  [cfg.initialBalance, 0, 0, cfg.prices.getD 0 0]

/-- State after a finite sequence of step calls, each applied to the
state the previous one left behind. -/
def runSteps (cfg : MarketConfig) (s : MarketState) (acts : List MarketAction) :
    MarketState :=
  acts.foldl (stepState cfg) s

/-! ### The Q-learning bot (src/Ticker/Trader1.py) -/

/-- Lookup in an insertion-ordered association list, the embedding of
a Python dict. -/
def lookupKV {α β : Type} [DecidableEq α] : List (α × β) → α → Option β
  | [], _ => none
  | (k, v) :: rest, key => if k = key then some v else lookupKV rest key

/-- Dict assignment d[key] = val: replaces the value in place when the
key is present, appends otherwise (Python dicts keep insertion order). -/
def insertKV {α β : Type} [DecidableEq α] : List (α × β) → α → β → List (α × β)
  | [], key, val => [(key, val)]
  | (k, v) :: rest, key, val =>
    if k = key then (k, val) :: rest else (k, v) :: insertKV rest key val

/-- QLearningConfig (Trader1.py lines 20-29). -/
structure QLearningConfig where
  alpha : ℚ
  gamma : ℚ
  epsilon : ℚ
  epsilonDecay : ℚ
  epsilonMin : ℚ
  memorySize : ℕ
  batchSize : ℕ
deriving DecidableEq

/-- One entry of performance_history (the dict built in train_episode,
Trader1.py lines 280-286). -/
structure EpisodeMetrics where
  episode : ℕ
  reward : ℚ
  steps : ℕ
  epsilon : ℚ
  qTableSize : ℕ
deriving DecidableEq

/-- The state of a QLearningBot object (Trader1.py lines 85-101),
together with the hidden memoization cache created by the
cache_result decorator on get_q_value (decorators.py lines 114-152).
The cache key is the pair of the raw state array and the action index
(the md5 of str(args); self is fixed for a single bot).  stateBins is
self.state_bins and actionN is self.action_space.n. -/
structure QBot where
  config : QLearningConfig
  stateBins : ℕ
  actionN : ℕ
  qTable : List ((List ℤ × ℕ) × ℚ)
  qCache : List ((List PyVal × ℕ) × ℚ)
  experienceBuffer : List (List PyVal × ℕ × ℚ × List PyVal)
  trainingEpisodes : ℕ
  totalReward : ℚ
  performanceHistory : List EpisodeMetrics
deriving DecidableEq

/-- QLearningBot.get_q_value (Trader1.py lines 128-141), including the
cache_result decorator: a hit returns the cached value without looking
at q_table; a miss reads q_table.get((discretized, action), 0.0) and
stores the result in the cache.  Returns the value and the bot (whose
cache may have grown). -/
def get_q_value (b : QBot) (state : List PyVal) (action : ℕ) : ℚ × QBot :=
  match lookupKV b.qCache (state, action) with
  | some v => (v, b)
  | none =>
      let v := (lookupKV b.qTable (discretize_state b.stateBins state, action)).getD 0
      (v, { b with qCache := insertKV b.qCache (state, action) v })

/-- The list comprehension of update_q_value (lines 164-167): calls
get_q_value for each action index in order, threading the cache. -/
def getQList (b : QBot) (state : List PyVal) : List ℕ → List ℚ × QBot
  | [] => ([], b)
  | a :: rest =>
      let p := get_q_value b state a
      let q := getQList p.2 state rest
      (p.1 :: q.1, q.2)

/-- Python max over a list; none models the ValueError on an empty
list. -/
def pyMax : List ℚ → Option ℚ
  | [] => none
  | x :: xs => some (xs.foldl max x)

/-- QLearningBot.update_q_value (Trader1.py lines 143-186).  none
models the TradingError the except-clause re-raises (only reachable
when action_space.n = 0).  The discretized next state is computed in
the source (line 161) but never used. -/
def update_q_value (b : QBot) (state : List PyVal) (action : ℕ) (reward : ℚ)
    (nextState : List PyVal) : Option QBot :=
  let ds := discretize_state b.stateBins state
  let p := getQList b nextState (List.range b.actionN)
  match pyMax p.1 with
  | none => none
  | some maxQNextState =>
      let q := get_q_value p.2 state action
      let currentQ := q.1
      let b2 := q.2
      let targetQ := reward + b2.config.gamma * maxQNextState
      let newQ := currentQ + b2.config.alpha * (targetQ - currentQ)
      let buf0 := b2.experienceBuffer ++ [(state, action, reward, nextState)]
      let buf := if b2.config.memorySize < buf0.length then buf0.drop 1 else buf0
      some { b2 with
              qTable := insertKV b2.qTable (ds, action) newQ
              experienceBuffer := buf
              totalReward := b2.totalReward + reward }

/-- QLearningBot.decay_epsilon (Trader1.py lines 243-248). -/
def decay_epsilon (b : QBot) : QBot :=
  let newEps := max b.config.epsilonMin (b.config.epsilon * b.config.epsilonDecay)
  { b with config := { b.config with epsilon := newEps } }

/-- QLearningBot.reset (Trader1.py lines 367-376).  Clears the
q-table, the experience buffer, both counters and the performance
history, and assigns the literal 0.1 to config.epsilon.  The
memoization cache lives in the decorator closure and is not touched. -/
def reset_bot (b : QBot) : QBot :=
  { b with
      qTable := []
      experienceBuffer := []
      trainingEpisodes := 0
      totalReward := 0
      performanceHistory := []
      config := { b.config with epsilon := 1 / 10 } }

/-! ### Concrete fixtures used by witnesses and counterexamples -/

/-- The market of the spec scenario: prices 100,110,105,120, initial
balance 1000, max_buy = max_sell = 100, fee 0 (validate_positive_number
accepts 0, despite its name: it only rejects negatives). -/
def cfgScenario : MarketConfig :=
  { prices := [100, 110, 105, 120]
    initialBalance := 1000
    maxBuy := 100
    maxSell := 100
    tradingFee := 0 }

/-- The BUY-HOLD-SELL action sequence of the spec scenario. -/
def actsScenario : List MarketAction :=
  [⟨ActionType.buy, 5⟩, ⟨ActionType.hold, 0⟩, ⟨ActionType.sell, 5⟩]

/-- A market whose construction the source accepts (all prices
positive, all other parameters non-negative) with a trading fee above
1. -/
def cfgFeeTwo : MarketConfig :=
  { prices := [1, 1, 1]
    initialBalance := 10
    maxBuy := 100
    maxSell := 100
    tradingFee := 2 }

/-- A market with a 10 percent fee, used to show that a buy whose cost
plus fee exceeds the balance is skipped rather than clamped. -/
def cfgFeeTenth : MarketConfig :=
  { prices := [1, 1]
    initialBalance := 100
    maxBuy := 100
    maxSell := 100
    tradingFee := 1 / 10 }

/-- The all-zero four-dimensional observation. -/
def obsZero : List PyVal :=
  [PyVal.finite 0, PyVal.finite 0, PyVal.finite 0, PyVal.finite 0]

/-- A QLearningConfig with alpha = 0.5 (the source default), gamma = 0
and the source defaults for the exploration parameters. -/
def cfgGammaZero : QLearningConfig :=
  { alpha := 1 / 2
    gamma := 0
    epsilon := 1 / 10
    epsilonDecay := 199 / 200
    epsilonMin := 1 / 100
    memorySize := 10000
    batchSize := 32 }

/-- A freshly constructed bot over cfgGammaZero with 10 state bins and
3 actions: empty q-table, empty cache, empty buffer. -/
def botZero : QBot :=
  { config := cfgGammaZero
    stateBins := 10
    actionN := 3
    qTable := []
    qCache := []
    experienceBuffer := []
    trainingEpisodes := 0
    totalReward := 0
    performanceHistory := [] }

/-- One call of update_q_value on the fixed transition
(obsZero, action 0, reward 1, obsZero); update_q_value returns some
whenever actionN is positive, so getD never fires on this bot. -/
def updStep (b : QBot) : QBot :=
  (update_q_value b obsZero 0 1 obsZero).getD b

/-- The cache contents after the first update on botZero: the three
misses of the list comprehension stored the table default 0 for the
keys (obsZero, 0), (obsZero, 1), (obsZero, 2). -/
def cacheZero : List ((List PyVal × ℕ) × ℚ) :=
  [((obsZero, 0), 0), ((obsZero, 1), 0), ((obsZero, 2), 0)]

/-- The quantity TradingEnv._execute_buy line 177 computes:
actual_amount = min(amount, balance / price, max_buy). -/
def buyQuantity (cfg : MarketConfig) (s : MarketState) (amount price : ℚ) : ℚ :=
  min (min amount (s.balance / price)) cfg.maxBuy

/-- The cost of the buy, line 180. -/
def buyCost (cfg : MarketConfig) (s : MarketState) (amount price : ℚ) : ℚ :=
  buyQuantity cfg s amount price * price

/-- The fee of the buy, line 181. -/
def buyFee (cfg : MarketConfig) (s : MarketState) (amount price : ℚ) : ℚ :=
  buyCost cfg s amount price * cfg.tradingFee

/-- The per-dimension result of the loop body on a finite value; the
non-finite arms are unreachable on the success path. -/
def binned (bins : ℕ) : PyVal → ℤ
  | PyVal.finite q => discretizeValue bins q
  | _ => 0

/-- The bot after the first update on botZero for the transition
(obsZero, 0, reward 1, obsZero): the table holds alpha times the
reward at the key of the discretized state, and the cache holds the
stale 0 for all three action indices of the raw state. -/
def botOne : QBot :=
  { config := cfgGammaZero
    stateBins := 10
    actionN := 3
    qTable := [(([0, 0, 0, 0], 0), 1 / 2)]
    qCache := cacheZero
    experienceBuffer := [(obsZero, 0, 1, obsZero)]
    trainingEpisodes := 0
    totalReward := 1
    performanceHistory := [] }

/-- The bot botEpsThree: configured with initial epsilon 3/10 and
carrying non-empty training state (a stored table entry, a buffered
transition, non-zero counters). -/
def botEpsThree : QBot :=
  { config := { cfgGammaZero with epsilon := 3 / 10 }
    stateBins := 10
    actionN := 3
    qTable := [(([0, 0, 0, 0], 0), 1 / 2)]
    qCache := cacheZero
    experienceBuffer := [(obsZero, 0, 1, obsZero)]
    trainingEpisodes := 2
    totalReward := 5
    performanceHistory := [] }

/-! ### Shared lemmas -/

/-- Writing a key and reading it back yields the written value. -/
lemma lookupKV_insertKV_self {α β : Type} [DecidableEq α]
    (l : List (α × β)) (k : α) (v : β) :
    lookupKV (insertKV l k v) k = some v := by
  induction l with
  | nil => simp [insertKV, lookupKV]
  | cons hd tl ih =>
      obtain ⟨k', v'⟩ := hd
      by_cases h : k' = k
      · simp [insertKV, lookupKV, h]
      · simp [insertKV, lookupKV, h, ih]

/-- On an all-finite observation the discretization loop succeeds and
bins every dimension. -/
lemma discretizeLoop_of_allFinite (bins : ℕ) :
    ∀ state : List PyVal, allFinite state = true →
      discretizeLoop bins state = some (state.map (binned bins)) := by
  intro state
  induction state with
  | nil => intro _; simp [discretizeLoop]
  | cons v rest ih =>
      intro h
      cases v with
      | finite q =>
          simp only [allFinite] at h
          simp [discretizeLoop, ih h, binned]
      | nan => simp [allFinite] at h
      | inf => simp [allFinite] at h
      | ninf => simp [allFinite] at h

/-- With a non-finite dimension the loop raises. -/
lemma discretizeLoop_of_not_allFinite (bins : ℕ) :
    ∀ state : List PyVal, allFinite state = false →
      discretizeLoop bins state = none := by
  intro state
  induction state with
  | nil => intro h; simp [allFinite] at h
  | cons v rest ih =>
      intro h
      cases v with
      | finite q =>
          simp only [allFinite] at h
          simp [discretizeLoop, ih h]
      | nan => simp [discretizeLoop]
      | inf => simp [discretizeLoop]
      | ninf => simp [discretizeLoop]

/-- Truncation toward zero and floor give the same bin once the result
is clamped at 0, because they only differ on negative inputs, where
both clamp to 0. -/
lemma discretizeValue_eq_floor (bins : ℕ) (q : ℚ) :
    discretizeValue bins q = max 0 (min ⌊q * (bins : ℚ)⌋ ((bins : ℤ) - 1)) := by
  unfold discretizeValue truncInt
  by_cases h : q * (bins : ℚ) < 0
  · rw [if_pos h]
    have hceil : ⌈q * (bins : ℚ)⌉ ≤ 0 := Int.ceil_le.mpr (by exact_mod_cast h.le)
    have hfloor : ⌊q * (bins : ℚ)⌋ ≤ 0 := Int.floor_nonpos h.le
    have h1 : min ⌈q * (bins : ℚ)⌉ ((bins : ℤ) - 1) ≤ 0 :=
      le_trans (min_le_left _ _) hceil
    have h2 : min ⌊q * (bins : ℚ)⌋ ((bins : ℤ) - 1) ≤ 0 :=
      le_trans (min_le_left _ _) hfloor
    rw [max_eq_left h1, max_eq_left h2]
  · rw [if_neg h]

/-- Evaluation of the first update on the fresh bot. -/
lemma updStep_botZero : updStep botZero = botOne := by
  norm_num [updStep, update_q_value, getQList, get_q_value, botZero, botOne,
    cfgGammaZero, lookupKV, insertKV, discretize_state, discretizeLoop,
    discretizeValue, truncInt, obsZero, cacheZero, pyMax, List.range_succ]

/-- Once the cache holds the three stale entries, every further update
for the transition (obsZero, 0, reward 1, obsZero) reads only the
cache, so it stores the constant 0 + alpha * (1 - 0) = 1/2 again, no
matter what the table says. -/
lemma updStep_stable (b : QBot) (hc : b.qCache = cacheZero) (hs : b.stateBins = 10)
    (ha : b.actionN = 3) (hcfg : b.config = cfgGammaZero) :
    updStep b = { b with
      qTable := insertKV b.qTable ([0, 0, 0, 0], 0) (1 / 2)
      experienceBuffer :=
        if 10000 < b.experienceBuffer.length + 1 then
          (b.experienceBuffer ++ [(obsZero, 0, 1, obsZero)]).drop 1
        else b.experienceBuffer ++ [(obsZero, 0, 1, obsZero)]
      totalReward := b.totalReward + 1 } := by
  norm_num [updStep, update_q_value, getQList, get_q_value, hc, hs, ha, hcfg,
    cacheZero, lookupKV, discretize_state, discretizeLoop, discretizeValue,
    truncInt, obsZero, pyMax, cfgGammaZero, List.range_succ]

/-- The market state after the scenario's BUY 5 at price 100. -/
lemma scenario_buy_state :
    runSteps cfgScenario (initState cfgScenario) [⟨ActionType.buy, 5⟩] =
      { balance := 500, positionSize := 5, currentStep := 1,
        totalTrades := 1, totalFees := 0 } := by
  norm_num [runSteps, stepState, step, dispatch, initState, cfgScenario,
    execute_buy, List.get?]

/-- The market state after the scenario's BUY then HOLD. -/
lemma scenario_hold_state :
    runSteps cfgScenario (initState cfgScenario)
        [⟨ActionType.buy, 5⟩, ⟨ActionType.hold, 0⟩] =
      { balance := 500, positionSize := 5, currentStep := 2,
        totalTrades := 1, totalFees := 0 } := by
  norm_num [runSteps, stepState, step, dispatch, initState, cfgScenario,
    execute_buy, List.get?]

/-- The market state after the whole scenario: the SELL is executed at
prices[2] = 105, so the balance becomes 500 + 5 * 105 = 1025. -/
lemma scenario_final_state :
    runSteps cfgScenario (initState cfgScenario) actsScenario =
      { balance := 1025, positionSize := 0, currentStep := 3,
        totalTrades := 2, totalFees := 0 } := by
  norm_num [runSteps, actsScenario, stepState, step, dispatch, initState,
    cfgScenario, execute_buy, execute_sell, List.get?]

/-- The market state after BUY 3 then SELL 3 on the fee-2 market: the
buy pays cost 3 plus fee 6 out of balance 10, the sell returns revenue
3 minus fee 6, leaving balance 1 - 3 = -2. -/
lemma feeTwo_final_state :
    runSteps cfgFeeTwo (initState cfgFeeTwo)
        [⟨ActionType.buy, 3⟩, ⟨ActionType.sell, 3⟩] =
      { balance := -2, positionSize := 0, currentStep := 2,
        totalTrades := 2, totalFees := 12 } := by
  norm_num [runSteps, stepState, step, dispatch, initState, cfgFeeTwo,
    execute_buy, execute_sell, List.get?]

/-! ### Claim theorems -/

/-- C6: for every market state and every action with a negative
amount, step fails with the invalid-action error and the market state
is exactly the same after the failed call as before it. -/
theorem step_negative_amount_atomic (cfg : MarketConfig) (s : MarketState)
    (a : MarketAction) (h : a.amount < 0) :
    step cfg s a = Except.error StepError.invalidAction ∧
    stepState cfg s a = s := by
  refine ⟨?_, ?_⟩
  · simp [step, h]
  · simp [stepState, step, h]

/-- Witness for the C6 theorem: a concrete negative-amount action on
the scenario market. -/
theorem step_negative_amount_atomic_witness :
    step cfgScenario (initState cfgScenario) ⟨ActionType.buy, -1⟩
        = Except.error StepError.invalidAction ∧
    stepState cfgScenario (initState cfgScenario) ⟨ActionType.buy, -1⟩
        = initState cfgScenario :=
  step_negative_amount_atomic cfgScenario (initState cfgScenario)
    ⟨ActionType.buy, -1⟩ (by norm_num)

/-- C4 (amended): on prices 100,110,105,120 with balance 1000 and zero
fee, BUY 5 gives balance 500 and position 5; HOLD changes neither; the
SELL then executes at the price of step index 2, which is 105, giving
balance 1025 (not 1100), position 0, total_trades 2, and done is true
because the step index 3 has reached len(prices) - 1 = 3. -/
theorem scenario_run_facts :
    (runSteps cfgScenario (initState cfgScenario)
        [⟨ActionType.buy, 5⟩]).balance = 500 ∧
    (runSteps cfgScenario (initState cfgScenario)
        [⟨ActionType.buy, 5⟩]).positionSize = 5 ∧
    (runSteps cfgScenario (initState cfgScenario)
        [⟨ActionType.buy, 5⟩, ⟨ActionType.hold, 0⟩]).balance = 500 ∧
    (runSteps cfgScenario (initState cfgScenario)
        [⟨ActionType.buy, 5⟩, ⟨ActionType.hold, 0⟩]).positionSize = 5 ∧
    (runSteps cfgScenario (initState cfgScenario) actsScenario).balance = 1025 ∧
    (runSteps cfgScenario (initState cfgScenario) actsScenario).positionSize = 0 ∧
    (runSteps cfgScenario (initState cfgScenario) actsScenario).totalTrades = 2 ∧
    (runSteps cfgScenario (initState cfgScenario) actsScenario).currentStep = 3 ∧
    cfgScenario.prices.length = 4 ∧
    is_done cfgScenario (runSteps cfgScenario (initState cfgScenario) actsScenario)
        = true := by
  rw [scenario_buy_state, scenario_hold_state, scenario_final_state]
  norm_num [is_done, cfgScenario]

/-- Counterexample to C4 as stated: running the scenario leaves
balance 1025, not the claimed 1100, because the sell is executed at
prices[2] = 105 rather than at 120. -/
theorem scenario_balance_not_1100 :
    (runSteps cfgScenario (initState cfgScenario) actsScenario).balance = 1025 ∧
    (runSteps cfgScenario (initState cfgScenario) actsScenario).balance ≠ 1100 := by
  rw [scenario_final_state]
  norm_num

/-- Counterexample to C1 as stated: a market the constructor accepts
(positive prices, non-negative parameters) with trading fee 2 reaches
a negative balance after the non-negative-amount actions BUY 3 then
SELL 3, because the sell's net revenue, revenue times one minus the
fee rate, is negative. -/
theorem market_balance_negative_fee_two :
    (runSteps cfgFeeTwo (initState cfgFeeTwo)
        [⟨ActionType.buy, 3⟩, ⟨ActionType.sell, 3⟩]).balance = -2 ∧
    ¬ 0 ≤ (runSteps cfgFeeTwo (initState cfgFeeTwo)
        [⟨ActionType.buy, 3⟩, ⟨ActionType.sell, 3⟩]).balance := by
  rw [feeTwo_final_state]
  norm_num

/-- Counterexample to C3 as stated: with balance 100, price 1, fee
rate 1/10 and amount 100, the computed buyable quantity is positive
and cost plus fee exceeds the balance, yet the source executes no
trade at all (state unchanged, trade_executed false) instead of
clamping the quantity down to what the balance affords. -/
theorem execute_buy_skips_instead_of_clamping :
    0 < buyQuantity cfgFeeTenth (initState cfgFeeTenth) 100 1 ∧
    (initState cfgFeeTenth).balance
        < buyCost cfgFeeTenth (initState cfgFeeTenth) 100 1
            + buyFee cfgFeeTenth (initState cfgFeeTenth) 100 1 ∧
    execute_buy cfgFeeTenth (initState cfgFeeTenth) 100 1
        = (initState cfgFeeTenth, 0, false) := by
  norm_num [buyQuantity, buyCost, buyFee, execute_buy, initState, cfgFeeTenth]

/-- Counterexample to C5 as stated: on the observation whose first
dimension is 1/2 and whose second dimension is nan, the source returns
the all-zero tuple, not the claimed dimension-independent result 5, 0. -/
theorem discretize_state_zeroes_whole_tuple :
    discretize_state 10 [PyVal.finite (1 / 2), PyVal.nan] = [0, 0] ∧
    discretize_state 10 [PyVal.finite (1 / 2), PyVal.nan] ≠ [5, 0] := by
  decide

/-- C2 (code bug): on a fresh bot with alpha 1/2 and gamma 0, two
successive update calls for the same transition (reward 1) both store
1/2, because the second call reads the q-value through the memoization
cache of the cache_result decorator and sees the stale value 0; the
exact tabular update from the stored table would give
1/2 + 1/2 * ((1 + 0 * (1/2)) - 1/2) = 3/4. -/
theorem update_uses_stale_cached_q :
    lookupKV (updStep (updStep botZero)).qTable ([0, 0, 0, 0], 0) = some (1 / 2) ∧
    (1 : ℚ) / 2 ≠ 1 / 2 + (1 / 2) * ((1 + 0 * (1 / 2)) - 1 / 2) := by
  constructor
  · rw [updStep_botZero, updStep_stable botOne rfl rfl rfl rfl]
    simp [botOne, lookupKV_insertKV_self]
  · norm_num

/-- C9 (code bug): reset clears the table, the buffer, both counters
and the history, but sets epsilon to the literal 1/10 instead of the
configured initial value 3/10 (the object keeps no copy of the initial
epsilon, so it cannot restore it). -/
theorem reset_bot_hardcodes_epsilon :
    botEpsThree.config.epsilon = 3 / 10 ∧
    (reset_bot botEpsThree).config.epsilon = 1 / 10 ∧
    (reset_bot botEpsThree).config.epsilon ≠ botEpsThree.config.epsilon ∧
    botEpsThree.qTable ≠ [] ∧
    (reset_bot botEpsThree).qTable = [] ∧
    (reset_bot botEpsThree).experienceBuffer = [] ∧
    (reset_bot botEpsThree).trainingEpisodes = 0 ∧
    (reset_bot botEpsThree).totalReward = 0 ∧
    (reset_bot botEpsThree).performanceHistory = [] := by
  norm_num [reset_bot, botEpsThree, cfgGammaZero]

/-- C8 (code bug): repeatedly applying the update to the fixed
transition (obsZero, action 0, reward 1, obsZero) with alpha 1/2 and
gamma 0 leaves the stored value frozen at 1/2 after every number of
calls, because each call after the first reads the stale cached value
0; the distance to the reward 1 stays 1/2 instead of contracting by
1 - alpha per update. -/
theorem repeated_update_stuck_at_half (k : ℕ) :
    lookupKV ((updStep^[k + 1]) botZero).qTable ([0, 0, 0, 0], 0) = some (1 / 2) := by
  have inv : ∀ m : ℕ,
      ((updStep^[m + 1]) botZero).qCache = cacheZero ∧
      ((updStep^[m + 1]) botZero).stateBins = 10 ∧
      ((updStep^[m + 1]) botZero).actionN = 3 ∧
      ((updStep^[m + 1]) botZero).config = cfgGammaZero ∧
      lookupKV ((updStep^[m + 1]) botZero).qTable ([0, 0, 0, 0], 0) = some (1 / 2) := by
    intro m
    induction m with
    | zero =>
        rw [Function.iterate_one, updStep_botZero]
        refine ⟨rfl, rfl, rfl, rfl, ?_⟩
        simp [botOne, lookupKV]
    | succ n ih =>
        obtain ⟨hc, hs, ha, hcfg, _⟩ := ih
        rw [Function.iterate_succ_apply', updStep_stable _ hc hs ha hcfg]
        exact ⟨hc, hs, ha, hcfg, lookupKV_insertKV_self _ _ _⟩
  exact (inv k).2.2.2.2

/-- C5 (amended): when every dimension of the observation is finite,
discretize bins each dimension independently to
clamp(floor(value * bin_count), 0, bin_count - 1); when any dimension
is non-finite the whole observation is mapped to the all-zero tuple;
in both cases every component of the output lies in the interval from
0 inclusive to bin_count exclusive. -/
theorem discretize_state_characterization (bins : ℕ) (hbins : 0 < bins)
    (state : List PyVal) :
    (allFinite state = true →
      discretize_state bins state = state.map fun v =>
        match v with
        | PyVal.finite q => max 0 (min ⌊q * (bins : ℚ)⌋ ((bins : ℤ) - 1))
        | _ => 0) ∧
    (allFinite state = false →
      discretize_state bins state = List.replicate state.length 0) ∧
    (∀ z ∈ discretize_state bins state, 0 ≤ z ∧ z < bins) := by
  have hb1 : (1 : ℤ) ≤ (bins : ℤ) := by exact_mod_cast hbins
  have hbval : ∀ q : ℚ, 0 ≤ discretizeValue bins q ∧ discretizeValue bins q < bins := by
    intro q
    refine ⟨le_max_left _ _, ?_⟩
    have h1 : min (truncInt (q * (bins : ℚ))) ((bins : ℤ) - 1) ≤ (bins : ℤ) - 1 :=
      min_le_right _ _
    have h2 : discretizeValue bins q ≤ (bins : ℤ) - 1 :=
      max_le (by omega) h1
    omega
  refine ⟨?_, ?_, ?_⟩
  · intro hfin
    rw [discretize_state, discretizeLoop_of_allFinite bins state hfin]
    show state.map (binned bins) = _
    refine List.map_congr_left ?_
    intro v _
    cases v with
    | finite q => simpa [binned] using discretizeValue_eq_floor bins q
    | nan => simp [binned]
    | inf => simp [binned]
    | ninf => simp [binned]
  · intro hnf
    rw [discretize_state, discretizeLoop_of_not_allFinite bins state hnf]
  · intro z hz
    rw [discretize_state] at hz
    rcases hfin : allFinite state with _ | _
    · rw [discretizeLoop_of_not_allFinite bins state hfin] at hz
      simp only [List.eq_of_mem_replicate hz]
      omega
    · rw [discretizeLoop_of_allFinite bins state hfin] at hz
      have hz' : z ∈ state.map (binned bins) := hz
      simp only [List.mem_map] at hz'
      obtain ⟨v, _, hv⟩ := hz'
      cases v with
      | finite q => simp only [binned] at hv; subst hv; exact hbval q
      | nan => simp only [binned] at hv; subst hv; omega
      | inf => simp only [binned] at hv; subst hv; omega
      | ninf => simp only [binned] at hv; subst hv; omega

/-- Witness for the C5 theorem: the finite observation with dimensions
1/2 and 23/10 at 10 bins discretizes to 5 and 9 (the second dimension
clamps at bin_count - 1). -/
theorem discretize_state_characterization_witness :
    discretize_state 10 [PyVal.finite (1 / 2), PyVal.finite (23 / 10)] = [5, 9] := by
  have h := (discretize_state_characterization 10 (by norm_num)
      [PyVal.finite (1 / 2), PyVal.finite (23 / 10)]).1 (by decide)
  have f1 : ⌊(1 / 2 : ℚ) * ((10 : ℕ) : ℚ)⌋ = 5 := by
    rw [show (1 / 2 : ℚ) * ((10 : ℕ) : ℚ) = ((5 : ℤ) : ℚ) by norm_num]
    exact Int.floor_intCast 5
  have f2 : ⌊(23 / 10 : ℚ) * ((10 : ℕ) : ℚ)⌋ = 23 := by
    rw [show (23 / 10 : ℚ) * ((10 : ℕ) : ℚ) = ((23 : ℤ) : ℚ) by norm_num]
    exact Int.floor_intCast 23
  rw [h]
  norm_num [f1, f2]

/-- Projection of decay on epsilon. -/
lemma decay_epsilon_eps (b : QBot) :
    (decay_epsilon b).config.epsilon
      = max b.config.epsilonMin (b.config.epsilon * b.config.epsilonDecay) := rfl

/-- Decay never changes the floor parameter. -/
lemma decay_epsilon_min (b : QBot) :
    (decay_epsilon b).config.epsilonMin = b.config.epsilonMin := rfl

/-- Decay never changes the decay parameter. -/
lemma decay_epsilon_dec (b : QBot) :
    (decay_epsilon b).config.epsilonDecay = b.config.epsilonDecay := rfl

/-- Under the config constraints, iterating decay keeps the parameters
fixed and keeps epsilon at or above the floor. -/
lemma iterate_decay_facts (b : QBot) (hd1 : b.config.epsilonDecay ≤ 1)
    (hm0 : 0 ≤ b.config.epsilonMin)
    (hme : b.config.epsilonMin ≤ b.config.epsilon) (k : ℕ) :
    ((decay_epsilon^[k]) b).config.epsilonMin = b.config.epsilonMin ∧
    ((decay_epsilon^[k]) b).config.epsilonDecay = b.config.epsilonDecay ∧
    b.config.epsilonMin ≤ ((decay_epsilon^[k]) b).config.epsilon := by
  induction k with
  | zero => exact ⟨rfl, rfl, hme⟩
  | succ n ih =>
      obtain ⟨hmin, hdec, _⟩ := ih
      refine ⟨?_, ?_, ?_⟩
      · rw [Function.iterate_succ_apply', decay_epsilon_min, hmin]
      · rw [Function.iterate_succ_apply', decay_epsilon_dec, hdec]
      · rw [Function.iterate_succ_apply', decay_epsilon_eps, hmin]
        exact le_max_left _ _

/-- C7: one decay call sets epsilon to
max(epsilon_min, epsilon * epsilon_decay); for a decay factor in the
interval from 0 exclusive to 1 inclusive, a non-negative floor and a
starting epsilon at or above the floor, the sequence of epsilon values
over repeated calls is monotone non-increasing, never goes below the
floor, and a call at the floor leaves epsilon unchanged. -/
theorem decay_epsilon_monotone_floor (b : QBot)
    (hd0 : 0 < b.config.epsilonDecay) (hd1 : b.config.epsilonDecay ≤ 1)
    (hm0 : 0 ≤ b.config.epsilonMin)
    (hme : b.config.epsilonMin ≤ b.config.epsilon) :
    (decay_epsilon b).config.epsilon
      = max b.config.epsilonMin (b.config.epsilon * b.config.epsilonDecay) ∧
    (∀ k : ℕ, ((decay_epsilon^[k + 1]) b).config.epsilon
      ≤ ((decay_epsilon^[k]) b).config.epsilon) ∧
    (∀ k : ℕ, b.config.epsilonMin ≤ ((decay_epsilon^[k]) b).config.epsilon) ∧
    (b.config.epsilon = b.config.epsilonMin →
      (decay_epsilon b).config.epsilon = b.config.epsilonMin) := by
  refine ⟨rfl, ?_, ?_, ?_⟩
  · intro k
    obtain ⟨hmin, hdec, hlow⟩ := iterate_decay_facts b hd1 hm0 hme k
    rw [Function.iterate_succ_apply', decay_epsilon_eps, hmin, hdec]
    have heps0 : 0 ≤ ((decay_epsilon^[k]) b).config.epsilon := le_trans hm0 hlow
    exact max_le hlow (mul_le_of_le_one_right heps0 hd1)
  · intro k
    exact (iterate_decay_facts b hd1 hm0 hme k).2.2
  · intro he
    rw [decay_epsilon_eps, he]
    exact max_eq_left (mul_le_of_le_one_right hm0 hd1)

/-- Witness for the C7 theorem: one decay on botZero, whose epsilon is
1/10, decay 199/200 and floor 1/100, yields 199/2000. -/
theorem decay_epsilon_monotone_floor_witness :
    (decay_epsilon botZero).config.epsilon = 199 / 2000 := by
  have h := (decay_epsilon_monotone_floor botZero
      (by norm_num [botZero, cfgGammaZero]) (by norm_num [botZero, cfgGammaZero])
      (by norm_num [botZero, cfgGammaZero])
      (by norm_num [botZero, cfgGammaZero])).1
  rw [h]
  norm_num [botZero, cfgGammaZero]

/-- C3 (amended): for a BUY step with positive balance and
non-negative amount, the source computes
buyable = min(amount, balance / price, max_buy); when buyable > 0 and
cost + fee is at most the balance, the trade executes exactly as the
claim lists; when buyable is not positive, or cost + fee exceeds the
balance, the trade is skipped entirely: the state is unchanged, the
reward is 0 and no clamping happens. -/
theorem execute_buy_characterization (cfg : MarketConfig) (s : MarketState)
    (amount price : ℚ) (ham : 0 ≤ amount) (hbal : 0 < s.balance)
    (hpr : 0 < price) :
    dispatch cfg s ⟨ActionType.buy, amount⟩ price
        = execute_buy cfg s amount price ∧
    (0 < buyQuantity cfg s amount price →
      buyCost cfg s amount price + buyFee cfg s amount price ≤ s.balance →
      execute_buy cfg s amount price =
        ({ s with
            balance := s.balance
              - (buyCost cfg s amount price + buyFee cfg s amount price)
            positionSize := s.positionSize + buyQuantity cfg s amount price
            totalTrades := s.totalTrades + 1
            totalFees := s.totalFees + buyFee cfg s amount price },
          buyQuantity cfg s amount price * price * (1 / 100), true)) ∧
    ((buyQuantity cfg s amount price ≤ 0 ∨
        s.balance < buyCost cfg s amount price + buyFee cfg s amount price) →
      execute_buy cfg s amount price = (s, 0, false)) := by
  refine ⟨by simp [dispatch, hbal], ?_, ?_⟩
  · intro hq hc
    simp only [buyQuantity, buyCost, buyFee] at hq hc
    simp only [execute_buy, buyQuantity, buyCost, buyFee]
    rw [if_pos hq, if_pos hc]
  · intro h
    rcases h with h | h
    · simp only [buyQuantity] at h
      simp only [execute_buy]
      rw [if_neg (not_lt.mpr h)]
    · simp only [buyQuantity, buyCost, buyFee] at h
      simp only [execute_buy]
      by_cases hq : 0 < min (min amount (s.balance / price)) cfg.maxBuy
      · rw [if_pos hq, if_neg (not_le.mpr h)]
      · rw [if_neg hq]

/-- Witness for the C3 theorem: the scenario's first BUY, where the
quantity 5 is affordable, executes and moves 500 plus zero fee. -/
theorem execute_buy_characterization_witness :
    execute_buy cfgScenario (initState cfgScenario) 5 100 =
      ({ balance := 500, positionSize := 5, currentStep := 0,
         totalTrades := 1, totalFees := 0 }, 5, true) := by
  have h := (execute_buy_characterization cfgScenario (initState cfgScenario) 5 100
      (by norm_num) (by norm_num [initState, cfgScenario]) (by norm_num)).2.1
      (by norm_num [buyQuantity, initState, cfgScenario])
      (by norm_num [buyQuantity, buyCost, buyFee, initState, cfgScenario])
  rw [h]
  norm_num [buyQuantity, buyCost, buyFee, initState, cfgScenario]

/-- A failed step leaves the state unchanged, and a successful step
changes balance and position exactly as the dispatch does. -/
lemma stepState_fields_of_get (cfg : MarketConfig) (s : MarketState)
    (a : MarketAction) (price : ℚ) (hneg : ¬ a.amount < 0)
    (hget : cfg.prices.get? s.currentStep = some price) :
    (stepState cfg s a).balance = (dispatch cfg s a price).1.balance ∧
    (stepState cfg s a).positionSize = (dispatch cfg s a price).1.positionSize ∧
    (stepState cfg s a).totalTrades = (dispatch cfg s a price).1.totalTrades ∧
    (stepState cfg s a).totalFees = (dispatch cfg s a price).1.totalFees := by
  unfold stepState step
  rw [if_neg hneg, hget]
  exact ⟨rfl, rfl, rfl, rfl⟩

/-- Single-step preservation of the non-negativity invariant when the
fee rate is between 0 and 1 and all prices are positive. -/
lemma stepState_nonneg (cfg : MarketConfig) (s : MarketState) (a : MarketAction)
    (hp : ∀ p ∈ cfg.prices, 0 < p) (hf0 : 0 ≤ cfg.tradingFee)
    (hf1 : cfg.tradingFee ≤ 1) (hb : 0 ≤ s.balance) (hpos : 0 ≤ s.positionSize) :
    0 ≤ (stepState cfg s a).balance ∧ 0 ≤ (stepState cfg s a).positionSize := by
  by_cases hneg : a.amount < 0
  · have hs : stepState cfg s a = s := by simp [stepState, step, hneg]
    rw [hs]; exact ⟨hb, hpos⟩
  cases hget : cfg.prices.get? s.currentStep with
  | none =>
      rw [List.get?_eq_getElem?] at hget
      have hs : stepState cfg s a = s := by
        simp [stepState, step, hneg, hget]
      rw [hs]; exact ⟨hb, hpos⟩
  | some price =>
      have hprice : 0 < price := hp price (List.get?_mem hget)
      obtain ⟨h1, h2, _, _⟩ := stepState_fields_of_get cfg s a price hneg hget
      rw [h1, h2]
      obtain ⟨k, amt⟩ := a
      cases k with
      | hold => exact ⟨hb, hpos⟩
      | buy =>
          by_cases hbal : 0 < s.balance
          · simp only [dispatch, if_pos hbal]
            simp only [execute_buy]
            split_ifs with hact hcost
            · refine ⟨sub_nonneg.mpr hcost, add_nonneg hpos hact.le⟩
            · exact ⟨hb, hpos⟩
            · exact ⟨hb, hpos⟩
          · simp only [dispatch, if_neg hbal]
            exact ⟨hb, hpos⟩
      | sell =>
          by_cases hps : 0 < s.positionSize
          · simp only [dispatch, if_pos hps]
            simp only [execute_sell]
            split_ifs with hact
            · constructor
              · have hrev : 0 ≤ min (min amt s.positionSize) cfg.maxSell * price :=
                  mul_nonneg hact.le hprice.le
                have hfee : min (min amt s.positionSize) cfg.maxSell * price
                      * cfg.tradingFee
                    ≤ min (min amt s.positionSize) cfg.maxSell * price :=
                  mul_le_of_le_one_right hrev hf1
                have hnet : 0 ≤ min (min amt s.positionSize) cfg.maxSell * price
                    - min (min amt s.positionSize) cfg.maxSell * price
                      * cfg.tradingFee := sub_nonneg.mpr hfee
                exact add_nonneg hb hnet
              · have hle : min (min amt s.positionSize) cfg.maxSell
                    ≤ s.positionSize :=
                  le_trans (min_le_left _ _) (min_le_right _ _)
                exact sub_nonneg.mpr hle
            · exact ⟨hb, hpos⟩
          · simp only [dispatch, if_neg hps]
            exact ⟨hb, hpos⟩

/-- C1 (amended): for every market whose prices are positive and whose
fee rate lies between 0 and 1, every finite sequence of step calls
with non-negative amounts keeps balance and position_size non-negative
(a buy deducts cost plus fee only when that total fits in the balance,
a sell removes at most the held position and credits a non-negative
net revenue). -/
theorem market_nonneg_of_fee_le_one (cfg : MarketConfig)
    (hp : ∀ p ∈ cfg.prices, 0 < p) (hf0 : 0 ≤ cfg.tradingFee)
    (hf1 : cfg.tradingFee ≤ 1) :
    ∀ (acts : List MarketAction) (s : MarketState),
      (∀ x ∈ acts, 0 ≤ x.amount) → 0 ≤ s.balance → 0 ≤ s.positionSize →
      0 ≤ (runSteps cfg s acts).balance ∧
      0 ≤ (runSteps cfg s acts).positionSize := by
  intro acts
  induction acts with
  | nil => intro s _ hb hpos; exact ⟨hb, hpos⟩
  | cons a rest ih =>
      intro s hacts hb hpos
      have h1 := stepState_nonneg cfg s a hp hf0 hf1 hb hpos
      have hrun : runSteps cfg s (a :: rest)
          = runSteps cfg (stepState cfg s a) rest := rfl
      rw [hrun]
      exact ih (stepState cfg s a)
        (fun x hx => hacts x (List.mem_cons_of_mem a hx)) h1.1 h1.2

/-- Witness for the C1 theorem: the scenario run ends with balance
1025 and position 0, both non-negative. -/
theorem market_nonneg_of_fee_le_one_witness :
    0 ≤ (runSteps cfgScenario (initState cfgScenario) actsScenario).balance ∧
    0 ≤ (runSteps cfgScenario (initState cfgScenario) actsScenario).positionSize :=
  market_nonneg_of_fee_le_one cfgScenario
    (by norm_num [cfgScenario]) (by norm_num [cfgScenario])
    (by norm_num [cfgScenario]) actsScenario (initState cfgScenario)
    (by norm_num [actsScenario]) (by norm_num [initState, cfgScenario])
    (by norm_num [initState])

/-- The trade counters of the dispatch either stay put or record
exactly one more trade with a non-negative fee. -/
lemma dispatch_counters (cfg : MarketConfig) (s : MarketState)
    (a : MarketAction) (price : ℚ) (hprice : 0 < price)
    (hf : 0 ≤ cfg.tradingFee) :
    ((dispatch cfg s a price).1.totalTrades = s.totalTrades ∧
     (dispatch cfg s a price).1.totalFees = s.totalFees) ∨
    ((dispatch cfg s a price).1.totalTrades = s.totalTrades + 1 ∧
     s.totalFees ≤ (dispatch cfg s a price).1.totalFees) := by
  obtain ⟨k, amt⟩ := a
  cases k with
  | hold => exact Or.inl ⟨rfl, rfl⟩
  | buy =>
      by_cases hbal : 0 < s.balance
      · simp only [dispatch, if_pos hbal]
        simp only [execute_buy]
        split_ifs with hact hcost
        · refine Or.inr ⟨rfl, ?_⟩
          have hfee : 0 ≤ min (min amt (s.balance / price)) cfg.maxBuy * price
              * cfg.tradingFee :=
            mul_nonneg (mul_nonneg hact.le hprice.le) hf
          exact le_add_of_nonneg_right hfee
        · exact Or.inl ⟨rfl, rfl⟩
        · exact Or.inl ⟨rfl, rfl⟩
      · have hd : dispatch cfg s ⟨ActionType.buy, amt⟩ price = (s, 0, false) := by
          simp [dispatch, hbal]
        rw [hd]
        exact Or.inl ⟨rfl, rfl⟩
  | sell =>
      by_cases hps : 0 < s.positionSize
      · simp only [dispatch, if_pos hps]
        simp only [execute_sell]
        split_ifs with hact
        · refine Or.inr ⟨rfl, ?_⟩
          have hfee : 0 ≤ min (min amt s.positionSize) cfg.maxSell * price
              * cfg.tradingFee :=
            mul_nonneg (mul_nonneg hact.le hprice.le) hf
          exact le_add_of_nonneg_right hfee
        · exact Or.inl ⟨rfl, rfl⟩
      · have hd : dispatch cfg s ⟨ActionType.sell, amt⟩ price = (s, 0, false) := by
          simp [dispatch, hps]
        rw [hd]
        exact Or.inl ⟨rfl, rfl⟩

/-- C10: between resets the trade counters are monotone: a step call
either leaves total_trades and total_fees unchanged, or increments
total_trades by exactly one while total_fees gains a non-negative fee;
reset starts both counters at zero. -/
theorem trade_counters_monotone (cfg : MarketConfig) (s : MarketState)
    (a : MarketAction) (hp : ∀ p ∈ cfg.prices, 0 < p)
    (hf : 0 ≤ cfg.tradingFee) :
    s.totalTrades ≤ (stepState cfg s a).totalTrades ∧
    s.totalFees ≤ (stepState cfg s a).totalFees ∧
    (((stepState cfg s a).totalTrades = s.totalTrades ∧
      (stepState cfg s a).totalFees = s.totalFees) ∨
     ((stepState cfg s a).totalTrades = s.totalTrades + 1 ∧
      s.totalFees ≤ (stepState cfg s a).totalFees)) ∧
    (initState cfg).totalTrades = 0 ∧ (initState cfg).totalFees = 0 := by
  have hmain : ((stepState cfg s a).totalTrades = s.totalTrades ∧
      (stepState cfg s a).totalFees = s.totalFees) ∨
      ((stepState cfg s a).totalTrades = s.totalTrades + 1 ∧
       s.totalFees ≤ (stepState cfg s a).totalFees) := by
    by_cases hneg : a.amount < 0
    · have hs : stepState cfg s a = s := by simp [stepState, step, hneg]
      rw [hs]; exact Or.inl ⟨rfl, rfl⟩
    cases hget : cfg.prices.get? s.currentStep with
    | none =>
        rw [List.get?_eq_getElem?] at hget
        have hs : stepState cfg s a = s := by
          simp [stepState, step, hneg, hget]
        rw [hs]; exact Or.inl ⟨rfl, rfl⟩
    | some price =>
        have hprice : 0 < price := hp price (List.get?_mem hget)
        obtain ⟨_, _, h3, h4⟩ := stepState_fields_of_get cfg s a price hneg hget
        rw [h3, h4]
        exact dispatch_counters cfg s a price hprice hf
  refine ⟨?_, ?_, hmain, rfl, rfl⟩
  · rcases hmain with ⟨h, _⟩ | ⟨h, _⟩
    · rw [h]
    · rw [h]; exact Nat.le_succ _
  · rcases hmain with ⟨_, h⟩ | ⟨_, h⟩
    · rw [h]
    · exact h

/-- Witness for the C10 theorem: the scenario's first BUY records one
trade and a zero fee gain. -/
theorem trade_counters_monotone_witness :
    (initState cfgScenario).totalTrades
      ≤ (stepState cfgScenario (initState cfgScenario)
          ⟨ActionType.buy, 5⟩).totalTrades ∧
    (initState cfgScenario).totalFees
      ≤ (stepState cfgScenario (initState cfgScenario)
          ⟨ActionType.buy, 5⟩).totalFees ∧
    (((stepState cfgScenario (initState cfgScenario)
          ⟨ActionType.buy, 5⟩).totalTrades = (initState cfgScenario).totalTrades ∧
      (stepState cfgScenario (initState cfgScenario)
          ⟨ActionType.buy, 5⟩).totalFees = (initState cfgScenario).totalFees) ∨
     ((stepState cfgScenario (initState cfgScenario)
          ⟨ActionType.buy, 5⟩).totalTrades
        = (initState cfgScenario).totalTrades + 1 ∧
      (initState cfgScenario).totalFees
        ≤ (stepState cfgScenario (initState cfgScenario)
            ⟨ActionType.buy, 5⟩).totalFees)) ∧
    (initState cfgScenario).totalTrades = 0 ∧
    (initState cfgScenario).totalFees = 0 :=
  trade_counters_monotone cfgScenario (initState cfgScenario)
    ⟨ActionType.buy, 5⟩ (by norm_num [cfgScenario]) (by norm_num [cfgScenario])

end UQ
